import Mathlib

/-!
Verification of the concert synchronization core of the ThorCode backend:
event normalization and batch deduplication (`removeDuplicateEvents`), the
two-key concert lookup (`findConcert`), band–concert linking (`addConcert`,
`addToExistingConcert`), band deletion with orphan-concert cleanup, and the
wishlist projection with its date-range and country filters.

The JavaScript source is shallowly embedded: JS objects with optional fields
become structures with `Option` fields, JS `undefined`-dereference TypeErrors
become `Except.error`, Prisma tables become lists of records, and `Date`
values are represented by their parsed UTC calendar components.
-/

namespace ThorCode

/-! ### Dates and ISO strings

A JS `Date` is modelled by its UTC calendar components.  `isoDateOnly`
models the date part of `Date.prototype.toISOString` (the code computes
`new Date(x).toISOString().split('T')[0]`), which zero-pads the year to four
digits and month/day to two; the model covers years 0–9999, the range in
which `toISOString` uses the fixed `YYYY-MM-DD` layout. -/

structure CivilDate where
  year : Nat
  month : Nat
  day : Nat
deriving DecidableEq

structure DateTime where
  date : CivilDate
  msOfDay : Nat
deriving DecidableEq

/-- Bounds under which the fixed-width `YYYY-MM-DD` rendering is faithful. -/
def CivilDate.small (d : CivilDate) : Prop :=
  d.year < 10000 ∧ d.month < 100 ∧ d.day < 100

instance (d : CivilDate) : Decidable d.small := by
  unfold CivilDate.small; infer_instance

def digitChar (n : Nat) : Char := Char.ofNat (48 + n)

def pad2 (n : Nat) : String := ⟨[digitChar (n / 10), digitChar (n % 10)]⟩

def pad4 (n : Nat) : String := pad2 (n / 100) ++ pad2 (n % 100)

def isoDateOnly (dt : DateTime) : String :=
  pad4 dt.date.year ++ "-" ++ pad2 dt.date.month ++ "-" ++ pad2 dt.date.day

/-- Millisecond-timestamp surrogate: strictly monotone in the lexicographic
order on (year, month, day, ms-of-day), hence ordered exactly like the epoch
milliseconds JS `<`/`>` compare for valid dates. -/
def DateTime.approxMs (dt : DateTime) : Nat :=
  ((dt.date.year * 100 + dt.date.month) * 100 + dt.date.day) * 100000000 + dt.msOfDay

/-! ### JS value helpers -/

/-- One JS property read `o.fld` on a possibly-`undefined` value: throws the
runtime TypeError when `o` is `undefined`. -/
def jsDot {α β : Type} (o : Option α) (fld : String) (f : α → β) : Except String β :=
  match o with
  | some v => .ok (f v)
  | none => .error ("TypeError: Cannot read properties of undefined (reading " ++ fld ++ ")")

/-- JS `x || 'unknown'` on a string: `undefined` and `""` are falsy. -/
def jsOrUnknown : Option String → String
  | none => "unknown"
  | some s => if s = "" then "unknown" else s

/-- JS `x || null` on a string: `undefined` and `""` are falsy. -/
def jsStrOrNone : Option String → Option String
  | none => none
  | some s => if s = "" then none else some s

/-- JS `new Date(x)` where `x` may be `null`: `new Date(null)` is the epoch. -/
def jsDate : Option DateTime → DateTime
  | some dt => dt
  | none => ⟨⟨1970, 1, 1⟩, 0⟩

/-! ### Raw Ticketmaster event records

Shape of the raw external event consumed by `removeDuplicateEvents`; every
nested field is optional, matching the JSON the code actually guards (or
fails to guard) against. -/

structure Attraction where
  name : Option String
deriving DecidableEq

structure GeoLoc where
  longitude : Option String
  latitude : Option String
deriving DecidableEq

/-- A named place (`country` / `city` sub-object of a venue). -/
structure Place where
  name : Option String
deriving DecidableEq

structure Venue where
  name : Option String
  country : Option Place
  city : Option Place
  location : Option GeoLoc
deriving DecidableEq

structure Embedded where
  venues : Option (List Venue)
  attractions : Option (List Attraction)
deriving DecidableEq

structure StartObj where
  dateTime : Option DateTime
deriving DecidableEq

structure StatusObj where
  code : Option String
deriving DecidableEq

structure RawDates where
  start : Option StartObj
  status : Option StatusObj
deriving DecidableEq

structure PublicSale where
  startDateTime : Option DateTime
deriving DecidableEq

structure Sales where
  public : Option PublicSale
deriving DecidableEq

structure RawEvent where
  embedded : Option Embedded
  id : Option String
  name : Option String
  dates : Option RawDates
  sales : Option Sales
  url : Option String
deriving DecidableEq

/-- `event._embedded?.venues?.[0]` — the first venue, if any. -/
def rawLocation (e : RawEvent) : Option Venue :=
  (e.embedded.bind Embedded.venues).bind List.head?

/-- `event._embedded?.venues?.[0]?.name` (no default applied yet). -/
def rawVenueName (e : RawEvent) : Option String :=
  (rawLocation e).bind Venue.name

/-- `event._embedded?.attractions?.map(a => a.name) || []`. -/
def performerNames (e : RawEvent) : List (Option String) :=
  ((e.embedded.bind Embedded.attractions).map (List.map Attraction.name)).getD []

/-- `event.dates?.start?.dateTime`, as a parsed date. -/
def rawStartDT (e : RawEvent) : Option DateTime :=
  (e.dates.bind RawDates.start).bind StartObj.dateTime

/-- `event.dates.status.code` when present (safe projection). -/
def rawStatusCode (e : RawEvent) : Option String :=
  (e.dates.bind RawDates.status).bind StatusObj.code

/-- The dedup key's venue component: `venues?.[0]?.name || 'unknown'`. -/
def rawVenueKey (e : RawEvent) : String := jsOrUnknown (rawVenueName e)

/-- The dedup key's date component: date-only truncation of the start
date-time, or the literal string `unknown` when absent. -/
def rawDateKey (e : RawEvent) : String :=
  match rawStartDT e with
  | some dt => isoDateOnly dt
  | none => "unknown"

/-- Day-only view of the scheduled date-time. -/
def rawDay (e : RawEvent) : Option CivilDate := (rawStartDT e).map DateTime.date

/-- The full dedup key: `` `${venue}_${eventDate}` ``. -/
def eventKey (e : RawEvent) : String := rawVenueKey e ++ "_" ++ rawDateKey e

/-- Shapes the date component of a dedup key can take (for dates within the
fixed-width ISO range). -/
def DateStrOk (s : String) : Prop :=
  s = "unknown" ∨ ∃ dt : DateTime, dt.date.small ∧ s = isoDateOnly dt

/-- All scheduled dates of an event lie in the fixed-width ISO range. -/
def RawDateOk (e : RawEvent) : Prop :=
  ∀ dt, rawStartDT e = some dt → dt.date.small

/-! ### Canonical events (the object pushed onto `uniqueEvents`) -/

structure CanonicalEvent where
  country : Option String
  city : Option String
  venue : String
  event_id : Option String
  longitude : Option String
  latitude : Option String
  name : Option String
  festival : Bool
  ticket_sale_start : Option DateTime
  concert_date : Option DateTime
  on_sale : Bool
  created_at : DateTime
  url : Option String
  metadata : String
deriving DecidableEq

/-- The body of the `uniqueEvents.push({...})` object literal, with property
values evaluated in source order.  Unguarded reads on possibly-`undefined`
objects (`location.country.name`, `location.city.name`, `location.name`,
`location.location`, `dates.start.dateTime`, `dates.status.code`) go through
`jsDot` and surface the TypeError the interpreter would raise; `now` is the
wall-clock `new Date()`. -/
def toCanonical (now : DateTime) (e : RawEvent) : Except String CanonicalEvent := do
  let location := rawLocation e
  let performingBands := performerNames e
  let dates : RawDates := e.dates.getD { start := none, status := none }
  let countryObj ← jsDot location "country" Venue.country
  let country ← jsDot countryObj "name" Place.name
  let cityObj ← jsDot location "city" Venue.city
  let city ← jsDot cityObj "name" Place.name
  let venueName ← jsDot location "name" Venue.name
  let geo ← jsDot location "location" Venue.location
  let startDT ← jsDot dates.start "dateTime" StartObj.dateTime
  let statusCode ← jsDot dates.status "code" StatusObj.code
  pure
    { country := country
      city := city
      venue := jsOrUnknown venueName
      event_id := e.id
      longitude := jsStrOrNone (geo.bind GeoLoc.longitude)
      latitude := jsStrOrNone (geo.bind GeoLoc.latitude)
      name := e.name
      festival := decide (6 < performingBands.length)
      ticket_sale_start := (e.sales.bind Sales.public).bind PublicSale.startDateTime
      concert_date := startDT
      on_sale := statusCode == some "onsale"
      created_at := now
      url := e.url
      metadata := String.intercalate ", " (performingBands.map (fun n => n.getD "")) ++
        " performing in " ++ city.getD "undefined" }

/-- The `events.forEach` loop of `removeDuplicateEvents`: the `seenVenueDates`
map becomes the `seen` key list, the `uniqueEvents` array the returned list;
a TypeError inside the push body aborts the whole call. -/
def removeDuplicateEventsAux (now : DateTime) :
    List RawEvent → List String → Except String (List CanonicalEvent)
  | [], _ => .ok []
  | e :: rest, seen =>
    if eventKey e ∈ seen then
      removeDuplicateEventsAux now rest seen
    else
      match toCanonical now e with
      | .error msg => .error msg
      | .ok c =>
        match removeDuplicateEventsAux now rest (eventKey e :: seen) with
        | .error msg => .error msg
        | .ok tail => .ok (c :: tail)

/-- `removeDuplicateEvents(events)` — normalize a fetch batch, dropping every
event whose `` `${venue}_${eventDate}` `` key was already seen. -/
def removeDuplicateEvents (now : DateTime) (events : List RawEvent) :
    Except String (List CanonicalEvent) :=
  removeDuplicateEventsAux now events []

/-! ### The durable store

Prisma tables as lists of records, in table order (`findFirst` returns the
first row, `create` appends).  `nextConcertId` models the autoincrement id
sequence of the `concert` table. -/

structure Concert where
  id : Nat
  country : Option String
  city : Option String
  venue : String
  event_id : Option String
  longitude : Option String
  latitude : Option String
  name : Option String
  festival : Bool
  ticket_sale_start : Option DateTime
  concert_date : Option DateTime
  on_sale : Bool
  created_at : DateTime
  url : Option String
  metadata : String
deriving DecidableEq

/-- `prisma.concert.create({ data: { ...event } })` — the stored row carries
the canonical event's fields verbatim plus the generated id. -/
def Concert.ofEvent (cid : Nat) (e : CanonicalEvent) : Concert :=
  { id := cid
    country := e.country
    city := e.city
    venue := e.venue
    event_id := e.event_id
    longitude := e.longitude
    latitude := e.latitude
    name := e.name
    festival := e.festival
    ticket_sale_start := e.ticket_sale_start
    concert_date := e.concert_date
    on_sale := e.on_sale
    created_at := e.created_at
    url := e.url
    metadata := e.metadata }

structure ConcertBandRef where
  concert : Nat
  band : Nat
deriving DecidableEq

structure Band where
  id : Nat
  name : String
deriving DecidableEq

structure Wishlist where
  id : Nat
  name : String
  user_id : Nat
deriving DecidableEq

structure WishlistBandRef where
  wishlist_id : Nat
  band_id : Nat
deriving DecidableEq

structure Store where
  concerts : List Concert
  concertBandRefs : List ConcertBandRef
  bands : List Band
  wishlists : List Wishlist
  wishlistBandRefs : List WishlistBandRef
  nextConcertId : Nat
deriving DecidableEq

/-! ### Concert Matcher -/

/-- First operand of `findConcert`'s `OR`: `{ event_id: event.id }`.  The
canonical events built by `removeDuplicateEvents` store the external id under
`event_id` and have no `id` property, so `event.id` is `undefined`; Prisma
removes filter fields whose value is `undefined`, leaving the empty condition
`{}`, which is satisfied by every row. -/
def eventIdOperand (_event : CanonicalEvent) (_c : Concert) : Bool := true

/-- Second operand of the `OR`: `{ AND: [{ concert_date: event.concert_date ?
new Date(event.concert_date) : null }, { venue: event.venue }] }`. -/
def venueDateOperand (event : CanonicalEvent) (c : Concert) : Bool :=
  c.concert_date == event.concert_date && c.venue == event.venue

/-- `findConcert({ event })` — `prisma.concert.findFirst` with the two-operand
`OR` filter; returns the first matching row in table order, `none` otherwise. -/
def findConcert (s : Store) (event : CanonicalEvent) : Option Concert :=
  s.concerts.find? (fun c => eventIdOperand event c || venueDateOperand event c)

/-! ### Band–Concert Reconciler -/

/-- `addConcert({ band, event })` — create the concert row from the canonical
event, then create the band–concert reference; returns the created concert. -/
def addConcert (s : Store) (band : Band) (event : CanonicalEvent) : Store × Concert :=
  let concert := Concert.ofEvent s.nextConcertId event
  ({ s with
      concerts := s.concerts ++ [concert]
      concertBandRefs := s.concertBandRefs ++ [⟨concert.id, band.id⟩]
      nextConcertId := s.nextConcertId + 1 },
   concert)

/-- `addToExistingConcert({ concert, band, event })` — fetch the concert's
references; if one for this band exists, return without writing; otherwise
create the reference.  The `event` argument is never written anywhere. -/
def addToExistingConcert (s : Store) (concert : Concert) (band : Band)
    (_event : CanonicalEvent) : Store :=
  let existingBands := s.concertBandRefs.filter (fun r => r.concert == concert.id)
  if existingBands.any (fun b => b.band == band.id) then s
  else { s with concertBandRefs := s.concertBandRefs ++ [⟨concert.id, band.id⟩] }

/-- Number of reference rows for one (concert, band) pair. -/
def pairRefCount (s : Store) (cid bid : Nat) : Nat :=
  (s.concertBandRefs.filter (fun r => r.concert == cid && r.band == bid)).length

/-! ### Band deletion with orphan cleanup -/

structure DeleteResult where
  deletedBandId : Nat
  removedWishlistReferences : Nat
  removedConcertReferences : Nat
  removedConcerts : List Nat
deriving DecidableEq

/-- The `DELETE /bands/:bandId` transaction: returns `none` when the band does
not exist (HTTP 404); otherwise deletes the band's wishlist references, its
concert references and the band row, then deletes exactly the previously
linked concerts left with zero band references (`bands: { none: {} }` over
`id in concertIds`). -/
def deleteBand (s : Store) (bandId : Nat) : Option (Store × DeleteResult) :=
  match s.bands.find? (fun b => b.id == bandId) with
  | none => none
  | some _ =>
    let concertIds := (s.concertBandRefs.filter (fun r => r.band == bandId)).map
      ConcertBandRef.concert
    let keptWishlistRefs := s.wishlistBandRefs.filter (fun r => !(r.band_id == bandId))
    let keptConcertRefs := s.concertBandRefs.filter (fun r => !(r.band == bandId))
    let keptBands := s.bands.filter (fun b => !(b.id == bandId))
    let orphanConcertIds := (s.concerts.filter (fun c =>
      concertIds.contains c.id && keptConcertRefs.all (fun r => !(r.concert == c.id)))).map
      Concert.id
    let keptConcerts := s.concerts.filter (fun c => !(orphanConcertIds.contains c.id))
    some ({ s with
            concerts := keptConcerts
            concertBandRefs := keptConcertRefs
            bands := keptBands
            wishlistBandRefs := keptWishlistRefs },
          { deletedBandId := bandId
            removedWishlistReferences := s.wishlistBandRefs.length - keptWishlistRefs.length
            removedConcertReferences := s.concertBandRefs.length - keptConcertRefs.length
            removedConcerts := orphanConcertIds })

/-! ### Wishlist projection (`GET /wishlists/:id` in ticketmaster.js) -/

/-- One entry of a concert's `bands` include: the selected `band_rel`
projection `{ id, name }`. -/
structure LinkedBand where
  id : Nat
  name : String
deriving DecidableEq

/-- A concert together with its full linked-band list, as returned by the
`prisma.band.findMany` include. -/
structure ConcertWithBands where
  concert : Concert
  bands : List LinkedBand
deriving DecidableEq

/-- The per-concert object stored into `concertsMap`. -/
structure ProjectedConcert where
  id : Nat
  name : Option String
  metadata : String
  country : Option String
  city : Option String
  venue : String
  longitude : Option String
  latitude : Option String
  concert_date : Option DateTime
  festival : Bool
  url : Option String
  participating_bands : List LinkedBand
deriving DecidableEq

/-- The date-range skip test: applied only when both `start_date` and
`end_date` are supplied (JS `start_date && end_date`; an absent or empty
query parameter is `none`); skips when `concertDate < startDate ||
concertDate > endDate`. -/
def dateRangeKeep (start_date end_date : Option DateTime) (cd : Option DateTime) : Bool :=
  match start_date, end_date with
  | some sd, some ed =>
    let d := jsDate cd
    !(decide (d.approxMs < sd.approxMs) || decide (ed.approxMs < d.approxMs))
  | _, _ => true

/-- The country allow-list skip test: applied only when `countries` is
supplied and non-empty (JS truthiness); keeps a concert when
`countries.split(',')` contains its country (a `null` country never
matches). -/
def countryKeep (countries : Option String) (country : Option String) : Bool :=
  match countries with
  | none => true
  | some cl =>
    if cl == "" then true
    else
      match country with
      | some cty => (cl.splitOn ",").contains cty
      | none => false

/-- The object set into `concertsMap`: the concert's selected fields plus
`participating_bands`, its linked bands filtered to wishlist members
(`.filter(band => bandIds.includes(band.id))`). -/
def mkProjected (bandIds : List Nat) (cw : ConcertWithBands) : ProjectedConcert :=
  { id := cw.concert.id
    name := cw.concert.name
    metadata := cw.concert.metadata
    country := cw.concert.country
    city := cw.concert.city
    venue := cw.concert.venue
    longitude := cw.concert.longitude
    latitude := cw.concert.latitude
    concert_date := cw.concert.concert_date
    festival := cw.concert.festival
    url := cw.concert.url
    participating_bands := cw.bands.filter (fun b => bandIds.contains b.id) }

/-- The `band.concerts.forEach` loop: date filter, country filter, then
first-seen dedup-insertion keyed by concert id (`seen` is the key set of
`concertsMap`). -/
def projectAux (sd ed : Option DateTime) (countries : Option String) (bandIds : List Nat) :
    List ConcertWithBands → List Nat → List ProjectedConcert
  | [], _ => []
  | cw :: rest, seen =>
    if dateRangeKeep sd ed cw.concert.concert_date &&
        countryKeep countries cw.concert.country then
      if seen.contains cw.concert.id then
        projectAux sd ed countries bandIds rest seen
      else
        mkProjected bandIds cw :: projectAux sd ed countries bandIds rest (cw.concert.id :: seen)
    else
      projectAux sd ed countries bandIds rest seen

/-- One band's `concertsList` in `formattedBands`. -/
def projectBandConcerts (sd ed : Option DateTime) (countries : Option String)
    (bandIds : List Nat) (concerts : List ConcertWithBands) : List ProjectedConcert :=
  projectAux sd ed countries bandIds concerts []

/-- The `allConcerts` map fill: iterate all bands' concert lists in order and
keep the first occurrence of each concert id. -/
def dedupByIdAux : List ProjectedConcert → List Nat → List ProjectedConcert
  | [], _ => []
  | pc :: rest, seen =>
    if seen.contains pc.id then dedupByIdAux rest seen
    else pc :: dedupByIdAux rest (pc.id :: seen)

/-- The bands linked to a concert, through `concertBandReference` join rows
and their `band_rel` foreign keys. -/
def linkedBandsOf (s : Store) (cid : Nat) : List LinkedBand :=
  (s.concertBandRefs.filter (fun r => r.concert == cid)).filterMap
    (fun r => (s.bands.find? (fun b => b.id == r.band)).map (fun b => ⟨b.id, b.name⟩))

/-- One member band's concert list with each concert's full band include
(`concerts.include.concert_rel` with nested `bands.include.band_rel`). -/
def bandConcertViews (s : Store) (bid : Nat) : List ConcertWithBands :=
  (s.concertBandRefs.filter (fun r => r.band == bid)).filterMap
    (fun r => (s.concerts.find? (fun c => c.id == r.concert)).map
      (fun c => ⟨c, linkedBandsOf s c.id⟩))

structure FormattedBand where
  id : Nat
  name : String
  concerts : List ProjectedConcert
deriving DecidableEq

structure SimplifiedBand where
  id : Nat
  name : String
  concertCount : Nat
deriving DecidableEq

structure WishlistView where
  id : Nat
  name : String
  user_id : Nat
  bands : List SimplifiedBand
  concerts : List ProjectedConcert
deriving DecidableEq

/-- `wishlist.bands.map(ref => ref.band_id)` — the wishlist's member band
ids. -/
def wishlistMemberIds (s : Store) (wid : Nat) : List Nat :=
  (s.wishlistBandRefs.filter (fun r => r.wishlist_id == wid)).map WishlistBandRef.band_id

/-- The whole `GET /wishlists/:id` handler after the wishlist fetch: `none`
models the 404; otherwise per-member-band filtered/deduplicated concert
lists, the simplified band summaries, and the flat deduplicated `concerts`
array (the two nested `forEach` loops filling `allConcerts` walk the
concatenation of the per-band lists in order). -/
def getWishlistView (s : Store) (wid : Nat) (sd ed : Option DateTime)
    (countries : Option String) : Option WishlistView :=
  match s.wishlists.find? (fun w => w.id == wid) with
  | none => none
  | some w =>
    let bandIds := wishlistMemberIds s wid
    let members := s.bands.filter (fun b => bandIds.contains b.id)
    let formatted := members.map (fun b =>
      FormattedBand.mk b.id b.name
        (projectBandConcerts sd ed countries bandIds (bandConcertViews s b.id)))
    let allConcerts := dedupByIdAux ((formatted.map FormattedBand.concerts).flatten) []
    some
      { id := w.id
        name := w.name
        user_id := w.user_id
        bands := formatted.map (fun fb => SimplifiedBand.mk fb.id fb.name fb.concerts.length)
        concerts := allConcerts }

/-! ### Concrete inputs for counterexamples and witnesses -/

def nowC : DateTime := ⟨⟨2024, 1, 1⟩, 0⟩

/-- A well-formed raw event whose venue is literally named `unknown`. -/
def rawUnknownNamed : RawEvent :=
  { embedded := some
      { venues := some [{ name := some "unknown", country := some { name := some "US" },
                          city := some { name := some "Austin" }, location := none }]
        attractions := none }
    id := some "E-A"
    name := some "Show A"
    dates := some { start := some { dateTime := none }, status := some { code := some "onsale" } }
    sales := none
    url := some "http://a" }

/-- A raw event whose venue name is the empty string (a different name, but
the same defaulted dedup key). -/
def rawEmptyNamed : RawEvent :=
  { embedded := some
      { venues := some [{ name := some "", country := none, city := none, location := none }]
        attractions := none }
    id := some "E-B"
    name := some "Show B"
    dates := none
    sales := none
    url := none }

/-- A well-formed raw event at venue `Roxy`, dated 2024-06-01. -/
def rawRoxy : RawEvent :=
  { embedded := some
      { venues := some [{ name := some "Roxy", country := some { name := some "DE" },
                          city := some { name := some "Berlin" }, location := none }]
        attractions := some [{ name := some "B1" }]
      }
    id := some "E-R"
    name := some "Roxy Night"
    dates := some { start := some { dateTime := some ⟨⟨2024, 6, 1⟩, 7200000⟩ },
                    status := some { code := some "offsale" } }
    sales := none
    url := none }

/-- Canonical form of `rawUnknownNamed`. -/
def canUnknownNamed : CanonicalEvent :=
  { country := some "US"
    city := some "Austin"
    venue := "unknown"
    event_id := some "E-A"
    longitude := none
    latitude := none
    name := some "Show A"
    festival := false
    ticket_sale_start := none
    concert_date := none
    on_sale := true
    created_at := nowC
    url := some "http://a"
    metadata := " performing in Austin" }

/-- Canonical form of `rawRoxy`. -/
def canRoxy : CanonicalEvent :=
  { country := some "DE"
    city := some "Berlin"
    venue := "Roxy"
    event_id := some "E-R"
    longitude := none
    latitude := none
    name := some "Roxy Night"
    festival := false
    ticket_sale_start := none
    concert_date := some ⟨⟨2024, 6, 1⟩, 7200000⟩
    on_sale := false
    created_at := nowC
    url := none
    metadata := "B1 performing in Berlin" }

/-- A raw event with no `_embedded` at all: the venue is absent, which the
spec says must degrade to the `unknown` default. -/
def rawNoVenue : RawEvent :=
  { embedded := none
    id := some "E4"
    name := some "No venue"
    dates := some { start := some { dateTime := none }, status := some { code := none } }
    sales := none
    url := none }

/-- A raw event with 7 listed performers and with venue name and start
date-time absent (but the enclosing objects present). -/
def rawSeven : RawEvent :=
  { embedded := some
      { venues := some [{ name := none, country := some { name := some "FR" },
                          city := some { name := some "Paris" }, location := none }]
        attractions := some [{ name := some "A1" }, { name := some "A2" }, { name := some "A3" },
                             { name := some "A4" }, { name := some "A5" }, { name := some "A6" },
                             { name := some "A7" }] }
    id := some "E7"
    name := some "Big bill"
    dates := some { start := some { dateTime := none }, status := some { code := some "onsale" } }
    sales := none
    url := none }

/-- Canonical form of `rawSeven`. -/
def canSeven : CanonicalEvent :=
  { country := some "FR"
    city := some "Paris"
    venue := "unknown"
    event_id := some "E7"
    longitude := none
    latitude := none
    name := some "Big bill"
    festival := true
    ticket_sale_start := none
    concert_date := none
    on_sale := true
    created_at := nowC
    url := none
    metadata := "A1, A2, A3, A4, A5, A6, A7 performing in Paris" }

/-- A bare stored concert for witness stores. -/
def mkBareConcert (cid : Nat) (venue : String) (cd : Option DateTime) (eid : Option String) :
    Concert :=
  { id := cid
    country := some "US"
    city := some "Town"
    venue := venue
    event_id := eid
    longitude := none
    latitude := none
    name := some "gig"
    festival := false
    ticket_sale_start := none
    concert_date := cd
    on_sale := false
    created_at := nowC
    url := none
    metadata := "" }

/-- First concert row of the matcher store: matches the probe event on no
key. -/
def cJunk : Concert := mkBareConcert 1 "Olympiastadion" (some ⟨⟨2024, 3, 3⟩, 0⟩) (some "OTHER")

/-- Second concert row: carries the probe event's external id `E1`. -/
def cTarget : Concert := mkBareConcert 2 "Arena" (some ⟨⟨2024, 5, 5⟩, 0⟩) (some "E1")

/-- Probe canonical event with external id `E1` and a venue/date matching no
stored row. -/
def evProbe : CanonicalEvent :=
  { country := some "US"
    city := some "NYC"
    venue := "MSG"
    event_id := some "E1"
    longitude := none
    latitude := none
    name := some "target"
    festival := false
    ticket_sale_start := none
    concert_date := some ⟨⟨2024, 9, 9⟩, 0⟩
    on_sale := false
    created_at := nowC
    url := none
    metadata := "" }

def storeMatcher : Store :=
  { concerts := [cJunk, cTarget]
    concertBandRefs := []
    bands := []
    wishlists := []
    wishlistBandRefs := []
    nextConcertId := 3 }

/-- Store for the idempotent-linking witness: one concert, one band, no
reference yet. -/
def storeLink : Store :=
  { concerts := [mkBareConcert 7 "Hall" none none]
    concertBandRefs := []
    bands := [⟨3, "Linked"⟩]
    wishlists := []
    wishlistBandRefs := []
    nextConcertId := 8 }

/-- Store for the band-deletion witness: band 1 is the sole band of concert
10 and shares concert 20 with band 2; band 1 sits in wishlist 5. -/
def storeDel : Store :=
  { concerts := [mkBareConcert 10 "Solo" none none, mkBareConcert 20 "Shared" none none]
    concertBandRefs := [⟨10, 1⟩, ⟨20, 1⟩, ⟨20, 2⟩]
    bands := [⟨1, "A"⟩, ⟨2, "B"⟩]
    wishlists := [⟨5, "W5", 9⟩]
    wishlistBandRefs := [⟨5, 1⟩]
    nextConcertId := 21 }

/-- Store for the projection witnesses: wishlist 100 holds bands A and B;
concert 50 (dated 2024-06-01) links bands A, B and the non-member X. -/
def storeWish : Store :=
  { concerts := [mkBareConcert 50 "Garden" (some ⟨⟨2024, 6, 1⟩, 0⟩) none]
    concertBandRefs := [⟨50, 1⟩, ⟨50, 2⟩, ⟨50, 3⟩]
    bands := [⟨1, "A"⟩, ⟨2, "B"⟩, ⟨3, "X"⟩]
    wishlists := [⟨100, "W", 9⟩]
    wishlistBandRefs := [⟨100, 1⟩, ⟨100, 2⟩]
    nextConcertId := 51 }

/-- The projection of concert 50 in wishlist 100: participating bands are A
and B only — the non-member X is excluded. -/
def pcGarden : ProjectedConcert :=
  { id := 50
    name := some "gig"
    metadata := ""
    country := some "US"
    city := some "Town"
    venue := "Garden"
    longitude := none
    latitude := none
    concert_date := some ⟨⟨2024, 6, 1⟩, 0⟩
    festival := false
    url := none
    participating_bands := [⟨1, "A"⟩, ⟨2, "B"⟩] }

/-- The full projection of wishlist 100 over `storeWish`. -/
def vWish : WishlistView :=
  { id := 100
    name := "W"
    user_id := 9
    bands := [⟨1, "A", 1⟩, ⟨2, "B", 1⟩]
    concerts := [pcGarden] }

def dMay1 : DateTime := ⟨⟨2024, 5, 1⟩, 0⟩

def dJun1 : DateTime := ⟨⟨2024, 6, 1⟩, 0⟩

def dJun30 : DateTime := ⟨⟨2024, 6, 30⟩, 0⟩

def dJul1 : DateTime := ⟨⟨2024, 7, 1⟩, 0⟩

def dAug1 : DateTime := ⟨⟨2024, 8, 1⟩, 0⟩

/-! ## Helper lemmas: strings, digits, and the dedup key -/

theorem strApp_data (s t : String) : (s ++ t).data = s.data ++ t.data := by
  cases s; cases t; rfl

theorem strExt {s t : String} (h : s.data = t.data) : s = t := by
  cases s; cases t; exact congrArg String.mk h

theorem digit_inj : ∀ a b : Fin 10, digitChar a.val = digitChar b.val → a = b := by decide

theorem digitChar_inj_lt {a b : Nat} (ha : a < 10) (hb : b < 10)
    (h : digitChar a = digitChar b) : a = b :=
  congrArg Fin.val (digit_inj ⟨a, ha⟩ ⟨b, hb⟩ h)

theorem digit_ne_underscore : ∀ a : Fin 10, digitChar a.val ≠ '_' := by decide

theorem iso_data (dt : DateTime) :
    (isoDateOnly dt).data =
      [digitChar (dt.date.year / 100 / 10), digitChar (dt.date.year / 100 % 10),
       digitChar (dt.date.year % 100 / 10), digitChar (dt.date.year % 100 % 10), '-',
       digitChar (dt.date.month / 10), digitChar (dt.date.month % 10), '-',
       digitChar (dt.date.day / 10), digitChar (dt.date.day % 10)] := rfl

theorem iso_data_len (dt : DateTime) : (isoDateOnly dt).data.length = 10 := by
  rw [iso_data]; rfl

theorem iso_inj {dt1 dt2 : DateTime} (h1 : dt1.date.small) (h2 : dt2.date.small)
    (h : isoDateOnly dt1 = isoDateOnly dt2) : dt1.date = dt2.date := by
  obtain ⟨hy1, hm1, hd1⟩ := h1
  obtain ⟨hy2, hm2, hd2⟩ := h2
  have hd := congrArg String.data h
  rw [iso_data, iso_data] at hd
  injection hd with e1 hd; injection hd with e2 hd; injection hd with e3 hd
  injection hd with e4 hd; injection hd with _ hd; injection hd with e5 hd
  injection hd with e6 hd; injection hd with _ hd; injection hd with e7 hd
  injection hd with e8 _
  have y1a : dt1.date.year / 100 < 100 := by omega
  have y2a : dt2.date.year / 100 < 100 := by omega
  have q1 := digitChar_inj_lt (by omega) (by omega) e1
  have q2 := digitChar_inj_lt (by omega) (by omega) e2
  have q3 := digitChar_inj_lt (by omega) (by omega) e3
  have q4 := digitChar_inj_lt (by omega) (by omega) e4
  have q5 := digitChar_inj_lt (by omega) (by omega) e5
  have q6 := digitChar_inj_lt (by omega) (by omega) e6
  have q7 := digitChar_inj_lt (by omega) (by omega) e7
  have q8 := digitChar_inj_lt (by omega) (by omega) e8
  have hy : dt1.date.year = dt2.date.year := by omega
  have hm : dt1.date.month = dt2.date.month := by omega
  have hdd : dt1.date.day = dt2.date.day := by omega
  have heta : dt1.date = CivilDate.mk dt1.date.year dt1.date.month dt1.date.day := rfl
  rw [heta, hy, hm, hdd]

theorem unknown_ne_iso (dt : DateTime) : ("unknown" : String) ≠ isoDateOnly dt := by
  intro h
  have hd := congrArg String.data h
  rw [iso_data] at hd
  have hl := congrArg List.length hd
  simp at hl

theorem key_mixed_absurd (v1 v2 : String) (dt : DateTime)
    (h : v1 ++ "_" ++ isoDateOnly dt = v2 ++ "_" ++ "unknown") : False := by
  have hd : v1.data ++ '_' :: (isoDateOnly dt).data = v2.data ++ '_' :: ("unknown").data := by
    have h2 := congrArg String.data h
    rw [strApp_data, strApp_data, strApp_data, strApp_data] at h2
    simpa [List.append_assoc] using h2
  have hv2 : v2.data.length = v1.data.length + 3 := by
    have hlen := congrArg List.length hd
    simp [iso_data_len] at hlen
    have e10 : (isoDateOnly dt).length = 10 := rfl
    have ev1 : v1.length = v1.data.length := rfl
    have ev2 : v2.length = v2.data.length := rfl
    omega
  have d2 : (v2.data ++ '_' :: ("unknown").data).drop v2.data.length =
      '_' :: ("unknown").data := List.drop_left _ _
  rw [← hd, hv2] at d2
  rw [← List.drop_drop, List.drop_left] at d2
  rw [iso_data] at d2
  have d3 : [digitChar (dt.date.year % 100 / 10), digitChar (dt.date.year % 100 % 10), '-',
      digitChar (dt.date.month / 10), digitChar (dt.date.month % 10), '-',
      digitChar (dt.date.day / 10), digitChar (dt.date.day % 10)] =
      '_' :: ("unknown").data := d2
  injection d3 with hhead _
  exact digit_ne_underscore ⟨dt.date.year % 100 / 10, by omega⟩ hhead

theorem key_inj_len {v1 v2 s1 s2 : String} (hl : s1.data.length = s2.data.length)
    (h : v1 ++ "_" ++ s1 = v2 ++ "_" ++ s2) : v1 = v2 ∧ s1 = s2 := by
  have hd : v1.data ++ '_' :: s1.data = v2.data ++ '_' :: s2.data := by
    have h2 := congrArg String.data h
    rw [strApp_data, strApp_data, strApp_data, strApp_data] at h2
    simpa [List.append_assoc] using h2
  have hlen := congrArg List.length hd
  simp only [List.length_append, List.length_cons] at hlen
  have hv : v1.data.length = v2.data.length := by omega
  obtain ⟨hva, htl⟩ := List.append_inj hd hv
  injection htl with _ hs
  exact ⟨strExt hva, strExt hs⟩

theorem key_inj {v1 v2 s1 s2 : String} (h1 : DateStrOk s1) (h2 : DateStrOk s2)
    (h : v1 ++ "_" ++ s1 = v2 ++ "_" ++ s2) : v1 = v2 ∧ s1 = s2 := by
  rcases h1 with rfl | ⟨dt1, _, rfl⟩
  · rcases h2 with rfl | ⟨dt2, _, rfl⟩
    · exact key_inj_len rfl h
    · exact absurd h.symm (fun hs => key_mixed_absurd v2 v1 dt2 hs)
  · rcases h2 with rfl | ⟨dt2, _, rfl⟩
    · exact absurd h (fun hs => key_mixed_absurd v1 v2 dt1 hs)
    · exact key_inj_len (by rw [iso_data_len, iso_data_len]) h

theorem dateStrOk_of (e : RawEvent) (h : RawDateOk e) : DateStrOk (rawDateKey e) := by
  unfold rawDateKey
  cases hr : rawStartDT e with
  | none => exact Or.inl rfl
  | some dt => exact Or.inr ⟨dt, h dt hr, rfl⟩

theorem rawDateKey_day {e1 e2 : RawEvent} (h1 : RawDateOk e1) (h2 : RawDateOk e2)
    (h : rawDateKey e1 = rawDateKey e2) : rawDay e1 = rawDay e2 := by
  unfold rawDateKey at h
  unfold rawDay
  cases hr1 : rawStartDT e1 with
  | none =>
    cases hr2 : rawStartDT e2 with
    | none => rfl
    | some dt2 => rw [hr1, hr2] at h; exact absurd h (unknown_ne_iso dt2)
  | some dt1 =>
    cases hr2 : rawStartDT e2 with
    | none => rw [hr1, hr2] at h; exact absurd h.symm (unknown_ne_iso dt1)
    | some dt2 =>
      rw [hr1, hr2] at h
      exact congrArg some (iso_inj (h1 dt1 hr1) (h2 dt2 hr2) h)

theorem eventKey_eq_iff {e1 e2 : RawEvent} (h1 : RawDateOk e1) (h2 : RawDateOk e2) :
    eventKey e1 = eventKey e2 ↔ (rawVenueKey e1 = rawVenueKey e2 ∧ rawDay e1 = rawDay e2) := by
  constructor
  · intro h
    obtain ⟨hv, hs⟩ := key_inj (dateStrOk_of e1 h1) (dateStrOk_of e2 h2) h
    exact ⟨hv, rawDateKey_day h1 h2 hs⟩
  · rintro ⟨hv, hd⟩
    have hs : rawDateKey e1 = rawDateKey e2 := by
      unfold rawDateKey
      unfold rawDay at hd
      cases hr1 : rawStartDT e1 with
      | none =>
        cases hr2 : rawStartDT e2 with
        | none => rfl
        | some dt2 => rw [hr1, hr2] at hd; exact absurd hd (by simp)
      | some dt1 =>
        cases hr2 : rawStartDT e2 with
        | none => rw [hr1, hr2] at hd; exact absurd hd (by simp)
        | some dt2 =>
          rw [hr1, hr2] at hd
          simp at hd
          show isoDateOnly dt1 = isoDateOnly dt2
          unfold isoDateOnly
          rw [hd]
    unfold eventKey
    rw [hv, hs]

/-! ## Batch deduplication (C1, C4) -/

theorem removeDupAux_all_seen (now : DateTime) :
    ∀ (l : List RawEvent) (seen : List String), (∀ e ∈ l, eventKey e ∈ seen) →
      removeDuplicateEventsAux now l seen = .ok []
  | [], _, _ => rfl
  | e :: rest, seen, h => by
    have he : eventKey e ∈ seen := h e (List.mem_cons_self _ _)
    simp only [removeDuplicateEventsAux, if_pos he]
    exact removeDupAux_all_seen now rest seen (fun x hx => h x (List.mem_cons_of_mem _ hx))

theorem removeDupAux_cons_seen (now : DateTime) (e : RawEvent) (rest : List RawEvent)
    (seen : List String) (h : eventKey e ∈ seen) :
    removeDuplicateEventsAux now (e :: rest) seen = removeDuplicateEventsAux now rest seen := by
  simp only [removeDuplicateEventsAux, if_pos h]

theorem removeDupAux_cons_new (now : DateTime) (e : RawEvent) (rest : List RawEvent)
    (seen : List String) (c : CanonicalEvent) (h : eventKey e ∉ seen)
    (hok : toCanonical now e = .ok c) :
    removeDuplicateEventsAux now (e :: rest) seen =
      match removeDuplicateEventsAux now rest (eventKey e :: seen) with
      | .error msg => .error msg
      | .ok tail => .ok (c :: tail) := by
  simp only [removeDuplicateEventsAux, if_neg h, hok]

/-- C1 (amended): within a batch of two raw events that both normalize
successfully (scheduled dates in the four-digit-year range), equal defaulted
venue keys (absent or empty venue name counts as `unknown`) and equal
scheduled days (or both absent) yield exactly one canonical event — the
first one, kept verbatim, not merged; a different defaulted venue key or a
different day yields two canonical events; and in any batch whose later
events all repeat the first event's key, every later duplicate is dropped
entirely. -/
theorem removeDuplicateEvents_dedup_key (now : DateTime) (e1 e2 : RawEvent)
    (c1 c2 : CanonicalEvent) (h1 : RawDateOk e1) (h2 : RawDateOk e2)
    (hok1 : toCanonical now e1 = .ok c1) (hok2 : toCanonical now e2 = .ok c2) :
    (rawVenueKey e1 = rawVenueKey e2 ∧ rawDay e1 = rawDay e2 →
      removeDuplicateEvents now [e1, e2] = .ok [c1])
    ∧ ((rawVenueKey e1 ≠ rawVenueKey e2 ∨ rawDay e1 ≠ rawDay e2) →
      removeDuplicateEvents now [e1, e2] = .ok [c1, c2])
    ∧ (∀ rest : List RawEvent, (∀ e ∈ rest, eventKey e = eventKey e1) →
      removeDuplicateEvents now (e1 :: rest) = .ok [c1]) := by
  refine ⟨?_, ?_, ?_⟩
  · intro hsame
    have hk : eventKey e2 ∈ [eventKey e1] := by
      simp [((eventKey_eq_iff h1 h2).2 hsame).symm]
    unfold removeDuplicateEvents
    rw [removeDupAux_cons_new now e1 [e2] [] c1 (by simp) hok1]
    rw [removeDupAux_cons_seen now e2 [] _ hk]
    rfl
  · intro hdiff
    have hk : eventKey e2 ∉ [eventKey e1] := by
      have hne : ¬ eventKey e1 = eventKey e2 := by
        intro hkk
        rcases hdiff with hv | hd
        · exact hv ((eventKey_eq_iff h1 h2).1 hkk).1
        · exact hd ((eventKey_eq_iff h1 h2).1 hkk).2
      simp only [List.mem_singleton]
      exact fun hkk => hne hkk.symm
    unfold removeDuplicateEvents
    rw [removeDupAux_cons_new now e1 [e2] [] c1 (by simp) hok1]
    rw [removeDupAux_cons_new now e2 [] _ c2 hk hok2]
    rfl
  · intro rest hall
    unfold removeDuplicateEvents
    rw [removeDupAux_cons_new now e1 rest [] c1 (by simp) hok1]
    rw [removeDupAux_all_seen now rest [eventKey e1] (fun e he => by simp [hall e he])]

/-- C1 counterexample to the claim as stated: the two raw events carry
different venue names (`unknown` and the empty string) and the same absent
date, yet they normalize to a single canonical event, because the empty
venue name is defaulted to the string `unknown` before it enters the dedup
key. -/
theorem removeDuplicateEvents_distinct_names_collide :
    rawVenueName rawUnknownNamed = some "unknown" ∧
    rawVenueName rawEmptyNamed = some "" ∧
    removeDuplicateEvents nowC [rawUnknownNamed, rawEmptyNamed] = .ok [canUnknownNamed] :=
  ⟨rfl, rfl, rfl⟩

/-- C1 witness: two well-formed events at venues `unknown` and `Roxy`
normalize to two canonical events. -/
theorem removeDuplicateEvents_dedup_key_witness :
    removeDuplicateEvents nowC [rawUnknownNamed, rawRoxy] = .ok [canUnknownNamed, canRoxy] :=
  (removeDuplicateEvents_dedup_key nowC rawUnknownNamed rawRoxy canUnknownNamed canRoxy
    (fun _ h => Option.noConfusion h)
    (fun dt h => by injection h with h2; rw [← h2]; decide)
    rfl rfl).2.1 (Or.inl (by decide))

/-- C4: the spec promises the normalizer never throws, but a raw event with
no venue object reaches the unguarded `location.country.name` read and the
whole batch normalization aborts with the interpreter's TypeError. -/
theorem removeDuplicateEvents_throws_on_missing_venue :
    removeDuplicateEvents nowC [rawNoVenue] =
      .error "TypeError: Cannot read properties of undefined (reading country)" := rfl

/-! ## Normalizer field derivations (C10) -/

theorem exbind_ok {α β : Type} {x : Except String α} {f : α → Except String β} {c : β}
    (h : x >>= f = .ok c) : ∃ a, x = .ok a ∧ f a = .ok c := by
  cases x with
  | error m => simp [Bind.bind, Except.bind] at h
  | ok a => exact ⟨a, rfl, by simpa [Bind.bind, Except.bind] using h⟩

theorem jsDot_ok {α β : Type} {o : Option α} {fld : String} {f : α → β} {b : β}
    (h : jsDot o fld f = .ok b) : ∃ v, o = some v ∧ b = f v := by
  cases o with
  | none => simp [jsDot] at h
  | some v =>
    refine ⟨v, rfl, ?_⟩
    have : Except.ok (ε := String) (f v) = .ok b := h
    injection this with h2
    exact h2.symm

/-- C10: whenever normalization of a raw event succeeds, the canonical
record's festival flag is set exactly when more than six performers are
listed, the on-sale flag is set exactly when the source status code is
`onsale`, an absent venue name becomes the string `unknown`, and an absent
start date-time becomes a null scheduled date. -/
theorem toCanonical_field_derivations (now : DateTime) (e : RawEvent) (c : CanonicalEvent)
    (h : toCanonical now e = .ok c) :
    c.festival = decide (6 < (performerNames e).length)
    ∧ (c.on_sale = true ↔ rawStatusCode e = some "onsale")
    ∧ (rawVenueName e = none → c.venue = "unknown")
    ∧ (rawStartDT e = none → c.concert_date = none) := by
  simp only [toCanonical] at h
  obtain ⟨countryObj, hs1, h⟩ := exbind_ok h
  obtain ⟨country, hs2, h⟩ := exbind_ok h
  obtain ⟨cityObj, hs3, h⟩ := exbind_ok h
  obtain ⟨city, hs4, h⟩ := exbind_ok h
  obtain ⟨venueName, hs5, h⟩ := exbind_ok h
  obtain ⟨geo, hs6, h⟩ := exbind_ok h
  obtain ⟨startDT, hs7, h⟩ := exbind_ok h
  obtain ⟨statusCode, hs8, h⟩ := exbind_ok h
  have hc : Except.ok (ε := String) _ = .ok c := h
  injection hc with hc2
  subst hc2
  refine ⟨rfl, ?_, ?_, ?_⟩
  · obtain ⟨stv, hstat, hcode⟩ := jsDot_ok hs8
    subst hcode
    cases hed : e.dates with
    | none => rw [hed] at hstat; simp [Option.getD] at hstat
    | some d =>
      rw [hed] at hstat
      simp only [Option.getD] at hstat
      show (stv.code == some "onsale") = true ↔ rawStatusCode e = some "onsale"
      unfold rawStatusCode
      rw [hed]
      simp [hstat]
  · intro hvn
    obtain ⟨v, hloc, hname⟩ := jsDot_ok hs5
    subst hname
    unfold rawVenueName at hvn
    rw [hloc] at hvn
    simp only [Option.some_bind] at hvn
    show jsOrUnknown v.name = "unknown"
    rw [hvn]
    rfl
  · intro hsd
    obtain ⟨st, hstart, hdt⟩ := jsDot_ok hs7
    subst hdt
    cases hed : e.dates with
    | none => rw [hed] at hstart; simp [Option.getD] at hstart
    | some d =>
      rw [hed] at hstart
      simp only [Option.getD] at hstart
      unfold rawStartDT at hsd
      rw [hed] at hsd
      simp only [Option.some_bind] at hsd
      rw [hstart] at hsd
      show st.dateTime = none
      simpa using hsd

/-- C10 witness: the seven-performer event with absent venue name and absent
start date-time gets `festival = true`, `on_sale = true`, venue `unknown`
and a null scheduled date. -/
theorem toCanonical_field_derivations_witness :
    canSeven.festival = true ∧ canSeven.on_sale = true ∧
    canSeven.venue = "unknown" ∧ canSeven.concert_date = none :=
  ⟨((toCanonical_field_derivations nowC rawSeven canSeven rfl).1).trans (by decide),
   ((toCanonical_field_derivations nowC rawSeven canSeven rfl).2.1).mpr rfl,
   (toCanonical_field_derivations nowC rawSeven canSeven rfl).2.2.1 rfl,
   (toCanonical_field_derivations nowC rawSeven canSeven rfl).2.2.2 rfl⟩

/-! ## Concert Matcher (C2) -/

/-- C2: the lookup never consults the canonical event's external id — the
filter reads the absent `id` property, so (under Prisma's `undefined`
stripping) the first OR operand matches every row: here the lookup returns
the first stored concert, which agrees with the probe event on no key, while
the concert that does carry the probe's external id `E1` is not the one
returned. -/
theorem findConcert_ignores_external_id :
    findConcert storeMatcher evProbe = some cJunk
    ∧ cJunk.event_id ≠ evProbe.event_id
    ∧ cJunk.venue ≠ evProbe.venue
    ∧ cJunk.concert_date ≠ evProbe.concert_date
    ∧ cTarget.event_id = evProbe.event_id :=
  ⟨rfl, by decide, by decide, by decide, rfl⟩

/-! ## Band–Concert Reconciler (C3, C5, C6) -/

theorem count_pos_iff (l : List ConcertBandRef) (cid bid : Nat) :
    0 < (l.filter (fun r => r.concert == cid && r.band == bid)).length ↔
      (l.filter (fun r => r.concert == cid)).any (fun r => r.band == bid) = true := by
  induction l with
  | nil => simp
  | cons r t ih =>
    cases h1 : (r.concert == cid) <;> cases h2 : (r.band == bid) <;>
      simp [List.filter_cons, List.any_cons, h1, h2, ih]

/-- C3: when a reference row for the (band, concert) pair already exists,
`addToExistingConcert` performs no write at all; linking twice starting from
an unlinked pair leaves exactly one reference row; and the at-most-one-row
invariant for the pair is preserved by every call. -/
theorem addToExistingConcert_idempotent (s : Store) (c : Concert) (b : Band)
    (ev ev2 : CanonicalEvent) :
    (1 ≤ pairRefCount s c.id b.id → addToExistingConcert s c b ev = s)
    ∧ (pairRefCount s c.id b.id = 0 →
        pairRefCount (addToExistingConcert (addToExistingConcert s c b ev) c b ev2)
          c.id b.id = 1)
    ∧ (pairRefCount s c.id b.id ≤ 1 →
        pairRefCount (addToExistingConcert s c b ev) c.id b.id ≤ 1) := by
  have hpair := count_pos_iff s.concertBandRefs c.id b.id
  refine ⟨?_, ?_, ?_⟩
  · intro h1
    have h1' : 0 < (s.concertBandRefs.filter
        (fun r => r.concert == c.id && r.band == b.id)).length := h1
    have hany := hpair.1 h1'
    simp only [addToExistingConcert]
    rw [if_pos hany]
  · intro h0
    have h0' : (s.concertBandRefs.filter
        (fun r => r.concert == c.id && r.band == b.id)).length = 0 := h0
    have hany : ¬ ((s.concertBandRefs.filter (fun r => r.concert == c.id)).any
        (fun r => r.band == b.id) = true) := fun hx => by
      have := hpair.2 hx
      omega
    have hstep : addToExistingConcert s c b ev =
        { s with concertBandRefs := s.concertBandRefs ++ [⟨c.id, b.id⟩] } := by
      simp only [addToExistingConcert]
      rw [if_neg hany]
    have hany2 : ((({ s with concertBandRefs :=
        s.concertBandRefs ++ [⟨c.id, b.id⟩] } : Store).concertBandRefs.filter
        (fun r => r.concert == c.id)).any (fun r => r.band == b.id)) = true := by
      simp [List.filter_append, List.any_append]
    have houter : addToExistingConcert (addToExistingConcert s c b ev) c b ev2 =
        { s with concertBandRefs := s.concertBandRefs ++ [⟨c.id, b.id⟩] } := by
      rw [hstep]
      simp only [addToExistingConcert]
      rw [if_pos hany2]
    rw [houter]
    show (((s.concertBandRefs ++ [({ concert := c.id, band := b.id } : ConcertBandRef)]).filter
        (fun r => r.concert == c.id && r.band == b.id)).length) = 1
    rw [List.filter_append, List.length_append, h0']
    simp
  · intro hle
    by_cases hany : (s.concertBandRefs.filter (fun r => r.concert == c.id)).any
        (fun r => r.band == b.id) = true
    · simp only [addToExistingConcert]
      rw [if_pos hany]
      exact hle
    · have h0' : (s.concertBandRefs.filter
          (fun r => r.concert == c.id && r.band == b.id)).length = 0 := by
        rw [← hpair] at hany
        omega
      simp only [addToExistingConcert]
      rw [if_neg hany]
      show (((s.concertBandRefs ++ [({ concert := c.id, band := b.id } : ConcertBandRef)]).filter
          (fun r => r.concert == c.id && r.band == b.id)).length) ≤ 1
      rw [List.filter_append, List.length_append, h0']
      simp

/-- C3 witness: linking band 3 to concert 7 twice, starting from a store with
no reference for the pair, leaves exactly one reference row. -/
theorem addToExistingConcert_idempotent_witness :
    pairRefCount (addToExistingConcert (addToExistingConcert storeLink
      (mkBareConcert 7 "Hall" none none) ⟨3, "Linked"⟩ evProbe)
      (mkBareConcert 7 "Hall" none none) ⟨3, "Linked"⟩ evProbe) 7 3 = 1 :=
  (addToExistingConcert_idempotent storeLink (mkBareConcert 7 "Hall" none none)
    ⟨3, "Linked"⟩ evProbe evProbe).2.1 rfl

/-- C5: `addConcert` returns a concert whose stored fields are exactly the
canonical event's fields, appends exactly that one concert row and exactly
one reference row linking the given band to it, and touches nothing else in
the store (no deletes, no other inserts). -/
theorem addConcert_postcondition (s : Store) (b : Band) (ev : CanonicalEvent) :
    (addConcert s b ev).2 = Concert.ofEvent s.nextConcertId ev
    ∧ (addConcert s b ev).1.concerts = s.concerts ++ [(addConcert s b ev).2]
    ∧ (addConcert s b ev).2.country = ev.country
    ∧ (addConcert s b ev).2.city = ev.city
    ∧ (addConcert s b ev).2.venue = ev.venue
    ∧ (addConcert s b ev).2.event_id = ev.event_id
    ∧ (addConcert s b ev).2.longitude = ev.longitude
    ∧ (addConcert s b ev).2.latitude = ev.latitude
    ∧ (addConcert s b ev).2.name = ev.name
    ∧ (addConcert s b ev).2.festival = ev.festival
    ∧ (addConcert s b ev).2.ticket_sale_start = ev.ticket_sale_start
    ∧ (addConcert s b ev).2.concert_date = ev.concert_date
    ∧ (addConcert s b ev).2.on_sale = ev.on_sale
    ∧ (addConcert s b ev).2.created_at = ev.created_at
    ∧ (addConcert s b ev).2.url = ev.url
    ∧ (addConcert s b ev).2.metadata = ev.metadata
    ∧ (addConcert s b ev).1.concertBandRefs =
        s.concertBandRefs ++ [⟨(addConcert s b ev).2.id, b.id⟩]
    ∧ (addConcert s b ev).1.bands = s.bands
    ∧ (addConcert s b ev).1.wishlists = s.wishlists
    ∧ (addConcert s b ev).1.wishlistBandRefs = s.wishlistBandRefs
    ∧ (addConcert s b ev).1.nextConcertId = s.nextConcertId + 1 :=
  ⟨rfl, rfl, rfl, rfl, rfl, rfl, rfl, rfl, rfl, rfl, rfl,
   rfl, rfl, rfl, rfl, rfl, rfl, rfl, rfl, rfl, rfl⟩

/-- C6: `addToExistingConcert` leaves the concert table — hence every field
of the existing concert row — and the band, wishlist and wishlist-reference
tables unchanged; the only possible store change is appending one
band–concert reference. -/
theorem addToExistingConcert_frame (s : Store) (c : Concert) (b : Band)
    (ev : CanonicalEvent) :
    (addToExistingConcert s c b ev).concerts = s.concerts
    ∧ (addToExistingConcert s c b ev).bands = s.bands
    ∧ (addToExistingConcert s c b ev).wishlists = s.wishlists
    ∧ (addToExistingConcert s c b ev).wishlistBandRefs = s.wishlistBandRefs
    ∧ (addToExistingConcert s c b ev).nextConcertId = s.nextConcertId
    ∧ ((addToExistingConcert s c b ev).concertBandRefs = s.concertBandRefs
        ∨ (addToExistingConcert s c b ev).concertBandRefs =
            s.concertBandRefs ++ [⟨c.id, b.id⟩]) := by
  simp only [addToExistingConcert]
  by_cases h : (s.concertBandRefs.filter (fun r => r.concert == c.id)).any
      (fun r => r.band == b.id) = true
  · rw [if_pos h]
    exact ⟨rfl, rfl, rfl, rfl, rfl, Or.inl rfl⟩
  · rw [if_neg h]
    exact ⟨rfl, rfl, rfl, rfl, rfl, Or.inr rfl⟩

/-! ## Band deletion and orphan cleanup (C7) -/

/-- C7: deleting an existing band removes all of its wishlist references,
all of its band–concert references and the band row itself, and removes a
stored concert exactly when that concert was linked to the deleted band and
no reference from another band remains for it; concerts that keep at least
one other band reference survive. -/
theorem deleteBand_orphan_cleanup (s : Store) (bandId : Nat)
    (hb : ∃ b ∈ s.bands, b.id = bandId) :
    ∃ s2 r, deleteBand s bandId = some (s2, r)
    ∧ s2.wishlistBandRefs = s.wishlistBandRefs.filter (fun x => !(x.band_id == bandId))
    ∧ s2.concertBandRefs = s.concertBandRefs.filter (fun x => !(x.band == bandId))
    ∧ s2.bands = s.bands.filter (fun x => !(x.id == bandId))
    ∧ (∀ c ∈ s.concerts, (c ∉ s2.concerts ↔
        ((∃ rf ∈ s.concertBandRefs, rf.band = bandId ∧ rf.concert = c.id)
          ∧ ∀ rf ∈ s.concertBandRefs, rf.band ≠ bandId → rf.concert ≠ c.id))) := by
  cases hf : s.bands.find? (fun b => b.id == bandId) with
  | none =>
    obtain ⟨b, hbm, hbid⟩ := hb
    have := List.find?_eq_none.1 hf b hbm
    simp [hbid] at this
  | some b0 =>
    refine ⟨_, _, by unfold deleteBand; rw [hf], rfl, rfl, rfl, ?_⟩
    intro c hc
    set concertIds := (s.concertBandRefs.filter (fun r => r.band == bandId)).map
      ConcertBandRef.concert with hconcertIds
    set keptConcertRefs := s.concertBandRefs.filter (fun r => !(r.band == bandId)) with hkept
    set q : Concert → Bool := fun x =>
      concertIds.contains x.id && keptConcertRefs.all (fun r => !(r.concert == x.id)) with hq
    have hqiff : ∀ x : Concert, q x = true ↔
        ((∃ rf ∈ s.concertBandRefs, rf.band = bandId ∧ rf.concert = x.id)
          ∧ ∀ rf ∈ s.concertBandRefs, rf.band ≠ bandId → rf.concert ≠ x.id) := by
      intro x
      rw [hq]
      simp only [Bool.and_eq_true]
      constructor
      · rintro ⟨h1, h2⟩
        constructor
        · have := List.elem_iff.1 h1
          obtain ⟨rf, hrf, hrfc⟩ := List.mem_map.1 this
          obtain ⟨hrfm, hrfb⟩ := List.mem_filter.1 hrf
          exact ⟨rf, hrfm, by simpa using hrfb, hrfc⟩
        · intro rf hrfm hrfb
          have hrfk : rf ∈ keptConcertRefs := by
            rw [hkept]
            exact List.mem_filter.2 ⟨hrfm, by simpa using hrfb⟩
          have := List.all_eq_true.1 h2 rf hrfk
          simpa using this
      · rintro ⟨⟨rf, hrfm, hrfb, hrfc⟩, h2⟩
        constructor
        · apply List.elem_iff.2
          exact List.mem_map.2 ⟨rf, List.mem_filter.2 ⟨hrfm, by simpa using hrfb⟩, hrfc⟩
        · apply List.all_eq_true.2
          intro rf2 hrf2
          obtain ⟨hrf2m, hrf2b⟩ := List.mem_filter.1 (hkept ▸ hrf2)
          have : rf2.band ≠ bandId := by simpa using hrf2b
          simpa using h2 rf2 hrf2m this
    have horph : ∀ x : Concert, x ∈ s.concerts →
        (((s.concerts.filter q).map Concert.id).contains x.id = true ↔ q x = true) := by
      intro x hx
      constructor
      · intro hcont
        obtain ⟨y, hy, hyid⟩ := List.mem_map.1 (List.elem_iff.1 hcont)
        obtain ⟨hym, hyq⟩ := List.mem_filter.1 hy
        have : q y = q x := by
          rw [hq]
          simp only [hyid]
        rw [← this]
        exact hyq
      · intro hqx
        exact List.elem_iff.2 (List.mem_map.2 ⟨x, List.mem_filter.2 ⟨hx, hqx⟩, rfl⟩)
    constructor
    · intro hnot
      rw [← hqiff]
      rw [← horph c hc]
      by_contra hcont
      refine hnot (List.mem_filter.2 ⟨hc, ?_⟩)
      cases hcc : ((s.concerts.filter q).map Concert.id).contains c.id with
      | false => rfl
      | true => exact absurd hcc hcont
    · intro hrhs hmem
      have h2 := (List.mem_filter.1 hmem).2
      have hcont := (horph c hc).2 ((hqiff c).2 hrhs)
      rw [hcont] at h2
      simp at h2

/-! ## Wishlist projection (C8, C9) -/

/-- C7 witness: deleting band 1 from `storeDel` removes its wishlist and
concert references, removes concert 10 (band 1 was its only band) and keeps
concert 20 (band 2 remains linked). -/
theorem deleteBand_orphan_cleanup_witness :
    (∃ b ∈ storeDel.bands, b.id = 1) ∧
    (∃ s2 r, deleteBand storeDel 1 = some (s2, r)
      ∧ s2.wishlistBandRefs = storeDel.wishlistBandRefs.filter (fun x => !(x.band_id == 1))
      ∧ s2.concertBandRefs = storeDel.concertBandRefs.filter (fun x => !(x.band == 1))
      ∧ s2.bands = storeDel.bands.filter (fun x => !(x.id == 1))
      ∧ (∀ c ∈ storeDel.concerts, (c ∉ s2.concerts ↔
          ((∃ rf ∈ storeDel.concertBandRefs, rf.band = 1 ∧ rf.concert = c.id)
            ∧ ∀ rf ∈ storeDel.concertBandRefs, rf.band ≠ 1 → rf.concert ≠ c.id)))) :=
  ⟨by decide, deleteBand_orphan_cleanup storeDel 1 (by decide)⟩

theorem projectAux_mem (sd ed : Option DateTime) (cs : Option String) (bids : List Nat) :
    ∀ (l : List ConcertWithBands) (seen : List Nat) (pc : ProjectedConcert),
      pc ∈ projectAux sd ed cs bids l seen →
      ∃ cw ∈ l, (dateRangeKeep sd ed cw.concert.concert_date &&
          countryKeep cs cw.concert.country) = true ∧ pc = mkProjected bids cw
  | [], _, pc, h => absurd h (List.not_mem_nil pc)
  | cw :: rest, seen, pc, h => by
    simp only [projectAux] at h
    by_cases hkeep : (dateRangeKeep sd ed cw.concert.concert_date &&
        countryKeep cs cw.concert.country) = true
    · rw [if_pos hkeep] at h
      by_cases hseen : seen.contains cw.concert.id = true
      · rw [if_pos hseen] at h
        obtain ⟨cw2, hm, hk, he⟩ := projectAux_mem sd ed cs bids rest seen pc h
        exact ⟨cw2, List.mem_cons_of_mem _ hm, hk, he⟩
      · rw [if_neg hseen] at h
        rcases List.mem_cons.1 h with he | h2
        · exact ⟨cw, List.mem_cons_self _ _, hkeep, he⟩
        · obtain ⟨cw2, hm, hk, he⟩ := projectAux_mem sd ed cs bids rest _ pc h2
          exact ⟨cw2, List.mem_cons_of_mem _ hm, hk, he⟩
    · rw [if_neg hkeep] at h
      obtain ⟨cw2, hm, hk, he⟩ := projectAux_mem sd ed cs bids rest seen pc h
      exact ⟨cw2, List.mem_cons_of_mem _ hm, hk, he⟩

theorem dedupByIdAux_subset :
    ∀ (l : List ProjectedConcert) (seen : List Nat) (pc : ProjectedConcert),
      pc ∈ dedupByIdAux l seen → pc ∈ l
  | [], _, pc, h => absurd h (List.not_mem_nil pc)
  | x :: rest, seen, pc, h => by
    simp only [dedupByIdAux] at h
    by_cases hs : seen.contains x.id = true
    · rw [if_pos hs] at h
      exact List.mem_cons_of_mem _ (dedupByIdAux_subset rest seen pc h)
    · rw [if_neg hs] at h
      rcases List.mem_cons.1 h with he | h2
      · exact he ▸ List.mem_cons_self _ _
      · exact List.mem_cons_of_mem _ (dedupByIdAux_subset rest _ pc h2)

theorem bandConcertViews_bands (s : Store) (bid : Nat) (cw : ConcertWithBands)
    (h : cw ∈ bandConcertViews s bid) : cw.bands = linkedBandsOf s cw.concert.id := by
  unfold bandConcertViews at h
  obtain ⟨r, _, hmap⟩ := List.mem_filterMap.1 h
  cases hfind : s.concerts.find? (fun c => c.id == r.concert) with
  | none => rw [hfind] at hmap; simp at hmap
  | some c =>
    rw [hfind] at hmap
    have hmap2 : some (ConcertWithBands.mk c (linkedBandsOf s c.id)) = some cw := hmap
    injection hmap2 with hmap3
    rw [← hmap3]

/-- C8: every concert retained in a wishlist projection carries as its
participating bands exactly the subset of its linked bands whose band id is
a member of the wishlist — linked bands outside the wishlist are excluded. -/
theorem getWishlistView_participating_bands (s : Store) (wid : Nat)
    (sd ed : Option DateTime) (countries : Option String) (v : WishlistView)
    (hv : getWishlistView s wid sd ed countries = some v) :
    ∀ pc ∈ v.concerts,
      pc.participating_bands =
        (linkedBandsOf s pc.id).filter
          (fun lb => (wishlistMemberIds s wid).contains lb.id) := by
  intro pc hpc
  unfold getWishlistView at hv
  cases hw : s.wishlists.find? (fun w => w.id == wid) with
  | none => rw [hw] at hv; exact Option.noConfusion hv
  | some w =>
    rw [hw] at hv
    injection hv with hv2
    rw [← hv2] at hpc
    have hflat := dedupByIdAux_subset _ _ pc hpc
    obtain ⟨sub, hsub, hpcsub⟩ := List.mem_flatten.1 hflat
    obtain ⟨fb, hfb, hfbc⟩ := List.mem_map.1 hsub
    obtain ⟨b, _, hbfb⟩ := List.mem_map.1 hfb
    rw [← hbfb] at hfbc
    rw [← hfbc] at hpcsub
    obtain ⟨cw, hcw, _, hpc2⟩ :=
      projectAux_mem sd ed countries (wishlistMemberIds s wid) _ [] pc hpcsub
    have hbands := bandConcertViews_bands s b.id cw hcw
    rw [hpc2]
    show cw.bands.filter (fun lb => (wishlistMemberIds s wid).contains lb.id) =
      (linkedBandsOf s cw.concert.id).filter
        (fun lb => (wishlistMemberIds s wid).contains lb.id)
    rw [hbands]

/-- C8 witness: wishlist 100 has member bands A and B; concert 50 links A, B
and X; its projection lists participating bands A and B only. -/
theorem getWishlistView_participating_bands_witness :
    pcGarden.participating_bands =
      (linkedBandsOf storeWish pcGarden.id).filter
        (fun lb => (wishlistMemberIds storeWish 100).contains lb.id) :=
  getWishlistView_participating_bands storeWish 100 none none none vWish rfl
    pcGarden (by decide)

theorem dateRangeKeep_no_end (sd : Option DateTime) (cd : Option DateTime) :
    dateRangeKeep sd none cd = true := by cases sd <;> rfl

theorem dateRangeKeep_no_start (ed : Option DateTime) (cd : Option DateTime) :
    dateRangeKeep none ed cd = true := by cases ed <;> rfl

theorem projectAux_nodate (sd ed : Option DateTime)
    (hsd : ∀ cd, dateRangeKeep sd ed cd = true) (cs : Option String) (bids : List Nat) :
    ∀ (l : List ConcertWithBands) (seen : List Nat),
      projectAux sd ed cs bids l seen = projectAux none none cs bids l seen
  | [], _ => rfl
  | cw :: rest, seen => by
    have h1 : dateRangeKeep sd ed cw.concert.concert_date = true := hsd _
    have h2 : dateRangeKeep (none : Option DateTime) none cw.concert.concert_date = true := rfl
    simp only [projectAux, h1, h2, Bool.true_and]
    rw [projectAux_nodate sd ed hsd cs bids rest seen,
      projectAux_nodate sd ed hsd cs bids rest (cw.concert.id :: seen)]

theorem getWishlistView_nodate (s : Store) (wid : Nat) (cs : Option String)
    (sd ed : Option DateTime) (h : ∀ cd, dateRangeKeep sd ed cd = true) :
    getWishlistView s wid sd ed cs = getWishlistView s wid none none cs := by
  unfold getWishlistView
  cases s.wishlists.find? (fun w => w.id == wid) with
  | none => rfl
  | some w =>
    simp only [projectBandConcerts]
    simp only [projectAux_nodate sd ed h cs (wishlistMemberIds s wid)]

/-- C9: the date-range filter is applied only when both bounds are supplied —
with either bound absent the projection is the unfiltered one — and it is
inclusive: the skip test keeps a concert exactly when start ≤ date ≤ end,
so every concert retained in a both-bounds projection has its date inside
the closed range. -/
theorem getWishlistView_date_filter (s : Store) (wid : Nat) (countries : Option String) :
    (∀ sd : Option DateTime,
      getWishlistView s wid sd none countries = getWishlistView s wid none none countries)
    ∧ (∀ ed : Option DateTime,
      getWishlistView s wid none ed countries = getWishlistView s wid none none countries)
    ∧ (∀ sdt edt : DateTime, ∀ cd : Option DateTime,
      dateRangeKeep (some sdt) (some edt) cd =
        (decide (sdt.approxMs ≤ (jsDate cd).approxMs) &&
         decide ((jsDate cd).approxMs ≤ edt.approxMs)))
    ∧ (∀ (sdt edt : DateTime) (v : WishlistView) (pc : ProjectedConcert) (d : DateTime),
      getWishlistView s wid (some sdt) (some edt) countries = some v →
      pc ∈ v.concerts → pc.concert_date = some d →
      sdt.approxMs ≤ d.approxMs ∧ d.approxMs ≤ edt.approxMs) := by
  refine ⟨?_, ?_, ?_, ?_⟩
  · intro sd
    exact getWishlistView_nodate s wid countries sd none (fun cd => dateRangeKeep_no_end sd cd)
  · intro ed
    exact getWishlistView_nodate s wid countries none ed (fun cd => dateRangeKeep_no_start ed cd)
  · intro sdt edt cd
    simp only [dateRangeKeep]
    rcases Nat.lt_or_ge (jsDate cd).approxMs sdt.approxMs with hlt | hge
    · have h1 : decide ((jsDate cd).approxMs < sdt.approxMs) = true := decide_eq_true hlt
      have h2 : decide (sdt.approxMs ≤ (jsDate cd).approxMs) = false :=
        decide_eq_false (by omega)
      simp [h1, h2]
    · rcases Nat.lt_or_ge edt.approxMs (jsDate cd).approxMs with hlt2 | hge2
      · have h1 : decide ((jsDate cd).approxMs < sdt.approxMs) = false :=
          decide_eq_false (by omega)
        have h2 : decide (edt.approxMs < (jsDate cd).approxMs) = true := decide_eq_true hlt2
        have h3 : decide (sdt.approxMs ≤ (jsDate cd).approxMs) = true := decide_eq_true hge
        have h4 : decide ((jsDate cd).approxMs ≤ edt.approxMs) = false :=
          decide_eq_false (by omega)
        simp [h1, h2, h3, h4]
      · have h1 : decide ((jsDate cd).approxMs < sdt.approxMs) = false :=
          decide_eq_false (by omega)
        have h2 : decide (edt.approxMs < (jsDate cd).approxMs) = false :=
          decide_eq_false (by omega)
        have h3 : decide (sdt.approxMs ≤ (jsDate cd).approxMs) = true := decide_eq_true hge
        have h4 : decide ((jsDate cd).approxMs ≤ edt.approxMs) = true := decide_eq_true hge2
        simp [h1, h2, h3, h4]
  · intro sdt edt v pc d hv hpc hpcd
    unfold getWishlistView at hv
    cases hw : s.wishlists.find? (fun w => w.id == wid) with
    | none => rw [hw] at hv; exact Option.noConfusion hv
    | some w =>
      rw [hw] at hv
      injection hv with hv2
      rw [← hv2] at hpc
      have hflat := dedupByIdAux_subset _ _ pc hpc
      obtain ⟨sub, hsub, hpcsub⟩ := List.mem_flatten.1 hflat
      obtain ⟨fb, hfb, hfbc⟩ := List.mem_map.1 hsub
      obtain ⟨b, _, hbfb⟩ := List.mem_map.1 hfb
      rw [← hbfb] at hfbc
      rw [← hfbc] at hpcsub
      obtain ⟨cw, _, hkeep, hpc2⟩ :=
        projectAux_mem (some sdt) (some edt) countries (wishlistMemberIds s wid) _ [] pc hpcsub
      have hdate : dateRangeKeep (some sdt) (some edt) cw.concert.concert_date = true := by
        rw [Bool.and_eq_true] at hkeep
        exact hkeep.1
      have hcd : cw.concert.concert_date = some d := by
        rw [hpc2] at hpcd
        exact hpcd
      rw [hcd] at hdate
      simp only [dateRangeKeep, jsDate, Bool.not_eq_true', Bool.or_eq_false_iff,
        decide_eq_false_iff_not] at hdate
      exact ⟨by omega, by omega⟩

/-- C9 witness: a concert dated 2024-06-01 is excluded by the range
2024-07-01..2024-08-01, included by 2024-05-01..2024-06-30, and the retained
projection of `storeWish` under the latter range has its date inside the
closed bounds. -/
theorem getWishlistView_date_filter_witness :
    dateRangeKeep (some dJul1) (some dAug1) (some dJun1) = false
    ∧ dateRangeKeep (some dMay1) (some dJun30) (some dJun1) = true
    ∧ dMay1.approxMs ≤ dJun1.approxMs ∧ dJun1.approxMs ≤ dJun30.approxMs :=
  ⟨((getWishlistView_date_filter storeWish 100 none).2.2.1 dJul1 dAug1
      (some dJun1)).trans (by decide),
   ((getWishlistView_date_filter storeWish 100 none).2.2.1 dMay1 dJun30
      (some dJun1)).trans (by decide),
   ((getWishlistView_date_filter storeWish 100 none).2.2.2 dMay1 dJun30 vWish pcGarden
      dJun1 rfl (by decide) rfl).1,
   ((getWishlistView_date_filter storeWish 100 none).2.2.2 dMay1 dJun30 vWish pcGarden
      dJun1 rfl (by decide) rfl).2⟩

end ThorCode
